import Mathlib

/-!
Shallow embedding of the Decentracert core contracts:

* `IssuerRegistry` (src/contracts/contracts/IssuerRegistry.sol)
* `SoulboundNFT`   (src/unnamed/part_004)
* `ZKVerifier`     (src/unnamed/part_005)

Addresses and bytes32 values are modelled as `Nat` (0 standing for the zero
address / zero hash); Solidity strings and `bytes` are modelled as byte lists
(`List Nat`).  `keccak256` is an EVM primitive whose internals are not part of
this repository, so every definition that hashes is parameterised by an
abstract hash function; witnesses instantiate it with a concrete stand-in.
Solidity mappings are modelled as total functions returning the zero value by
default, exactly as EVM storage does.  A reverting call is an `Except.error`;
the caller-visible atomicity of a revert (no partial writes) is modelled by
returning errors before any state is built.
-/

namespace Decentracert

/-- Point update of a map modelled as a total function (a Solidity
`mapping` assignment `m[k] = v`). -/
def setF {β : Type} (f : Nat → β) (k : Nat) (v : β) : Nat → β :=
  fun x => if x = k then v else f x

/-- Projection of an `Except` to its error, `none` on success. -/
def errOf {ε α : Type} : Except ε α → Option ε
  | .error e => some e
  | .ok _ => none

/-- Boolean success test for an `Except`. -/
def okB {ε α : Type} : Except ε α → Bool
  | .error _ => false
  | .ok _ => true

/-- The successful result of an `Except`, or the default `d` on error. -/
def okState {ε β : Type} (d : β) : Except ε β → β
  | .ok s => s
  | .error _ => d

/-- The first component of a successful pair result, or `d` on error. -/
def okFst {ε α β : Type} (d : α) : Except ε (α × β) → α
  | .ok (a, _) => a
  | .error _ => d

/-- The second component of a successful pair result, or `d` on error. -/
def okSnd {ε α β : Type} (d : β) : Except ε (α × β) → β
  | .ok (_, s) => s
  | .error _ => d

namespace IssuerRegistry

/-- `enum IssuerTier { NONE, MANUAL, T2, T1 }` from IIssuerRegistry.sol. -/
inductive IssuerTier
  | NONE
  | MANUAL
  | T2
  | T1
deriving DecidableEq

/-- The numeric value of a tier (its position in the Solidity enum),
used by `uint8(issuerTier)` casts. -/
def tierNat : IssuerTier → Nat
  | .NONE => 0
  | .MANUAL => 1
  | .T2 => 2
  | .T1 => 3

/-- `struct IssuerData` from IIssuerRegistry.sol.  Strings are byte lists. -/
structure IssuerData where
  issuerAddress : Nat
  tier : IssuerTier
  name : List Nat
  verificationData : List Nat
  verifiedAt : Nat
  isActive : Bool
deriving DecidableEq

/-- The all-zero `IssuerData` record an EVM mapping returns for an
unknown key. -/
def IssuerData.zero : IssuerData :=
  { issuerAddress := 0, tier := .NONE, name := [], verificationData := [],
    verifiedAt := 0, isActive := false }

/-- Storage of the `IssuerRegistry` contract plus the `Ownable` owner slot. -/
structure RegState where
  issuers : Nat → IssuerData
  domainToIssuer : Nat → Nat
  socialMediaToIssuer : Nat → Nat
  admins : Nat → Bool
  owner : Nat

/-- Revert reasons of the `IssuerRegistry` contract. -/
inductive RegError
  | domainAlreadyRegistered
  | socialAlreadyRegistered
  | callerNotT2
  | callerNotAdmin
  | callerNotOwner
  | notRegisteredIssuer
deriving DecidableEq

/-- The constructor: `Ownable(msg.sender)` and `_admins[msg.sender] = true`. -/
def initRegState (deployer : Nat) : RegState :=
  { issuers := fun _ => IssuerData.zero
    domainToIssuer := fun _ => 0
    socialMediaToIssuer := fun _ => 0
    admins := setF (fun _ => false) deployer true
    owner := deployer }

/-- `_toLower`: ASCII-folds bytes 0x41..0x5A (65..90) by adding 32,
leaving every other byte unchanged. -/
def toLower (s : List Nat) : List Nat :=
  s.map (fun b => if 65 ≤ b ∧ b ≤ 90 then b + 32 else b)

/-- `_hash`: keccak of the lower-cased bytes of the string, with the keccak
primitive abstracted as `k`. -/
def hashStr (k : List Nat → Nat) (s : List Nat) : Nat :=
  k (toLower s)

/-- `verifyIssuerT1(issuerName, domain, verificationData)`. -/
def verifyIssuerT1 (k : List Nat → Nat) (sender now : Nat)
    (issuerName domain verificationData : List Nat) (st : RegState) :
    Except RegError RegState :=
  if st.domainToIssuer (hashStr k domain) ≠ 0 then
    .error .domainAlreadyRegistered
  else .ok
    { st with
      issuers := setF st.issuers sender
        { issuerAddress := sender, tier := .T1, name := issuerName,
          verificationData := verificationData, verifiedAt := now,
          isActive := true }
      domainToIssuer := setF st.domainToIssuer (hashStr k domain) sender }

/-- `verifyIssuerT2(issuerName, socialMediaUrl)`. -/
def verifyIssuerT2 (k : List Nat → Nat) (sender now : Nat)
    (issuerName socialMediaUrl : List Nat) (st : RegState) :
    Except RegError RegState :=
  if st.socialMediaToIssuer (hashStr k socialMediaUrl) ≠ 0 then
    .error .socialAlreadyRegistered
  else .ok
    { st with
      issuers := setF st.issuers sender
        { issuerAddress := sender, tier := .T2, name := issuerName,
          verificationData := socialMediaUrl, verifiedAt := now,
          isActive := true }
      socialMediaToIssuer :=
        setF st.socialMediaToIssuer (hashStr k socialMediaUrl) sender }

/-- The bytes of the fixed sentinel string "Manual verification". -/
def manualSentinel : List Nat :=
  [77, 97, 110, 117, 97, 108, 32, 118, 101, 114, 105, 102, 105, 99, 97,
   116, 105, 111, 110]

/-- `manualVerifyIssuer(issuerAddress, issuerName)`, `onlyAdmin`. -/
def manualVerifyIssuer (sender now issuerAddress : Nat)
    (issuerName : List Nat) (st : RegState) : Except RegError RegState :=
  if ¬ st.admins sender then .error .callerNotAdmin
  else .ok
    { st with
      issuers := setF st.issuers issuerAddress
        { issuerAddress := issuerAddress, tier := .MANUAL, name := issuerName,
          verificationData := manualSentinel, verifiedAt := now,
          isActive := true } }

/-- `upgradeToT1(domain, verificationData)`. -/
def upgradeToT1 (k : List Nat → Nat) (sender now : Nat)
    (domain verificationData : List Nat) (st : RegState) :
    Except RegError RegState :=
  if (st.issuers sender).tier ≠ IssuerTier.T2 then .error .callerNotT2
  else if st.domainToIssuer (hashStr k domain) ≠ 0 then
    .error .domainAlreadyRegistered
  else
    .ok
      { st with
        issuers := setF st.issuers sender
          { st.issuers sender with
            tier := .T1, verificationData := verificationData,
            verifiedAt := now }
        domainToIssuer := setF st.domainToIssuer (hashStr k domain) sender
        socialMediaToIssuer :=
          setF st.socialMediaToIssuer
            (hashStr k (st.issuers sender).verificationData) 0 }

/-- `isVerifiedIssuer(issuer)`: tier set and active. -/
def isVerifiedIssuer (st : RegState) (issuer : Nat) : Bool :=
  (st.issuers issuer).tier != IssuerTier.NONE && (st.issuers issuer).isActive

/-- `getIssuerTier(issuer)`. -/
def getIssuerTier (st : RegState) (issuer : Nat) : IssuerTier :=
  (st.issuers issuer).tier

/-- `addAdmin(admin)`, `onlyOwner`. -/
def addAdmin (sender admin : Nat) (st : RegState) : Except RegError RegState :=
  if sender ≠ st.owner then .error .callerNotOwner
  else .ok { st with admins := setF st.admins admin true }

/-- `removeAdmin(admin)`, `onlyOwner`. -/
def removeAdmin (sender admin : Nat) (st : RegState) :
    Except RegError RegState :=
  if sender ≠ st.owner then .error .callerNotOwner
  else .ok { st with admins := setF st.admins admin false }

/-- `deactivateIssuer(issuer)`, `onlyAdmin`. -/
def deactivateIssuer (sender issuer : Nat) (st : RegState) :
    Except RegError RegState :=
  if ¬ st.admins sender then .error .callerNotAdmin
  else if (st.issuers issuer).tier = IssuerTier.NONE then
    .error .notRegisteredIssuer
  else
    let d := st.issuers issuer
    .ok { st with issuers := setF st.issuers issuer { d with isActive := false } }

/-- `reactivateIssuer(issuer)`, `onlyAdmin`. -/
def reactivateIssuer (sender issuer : Nat) (st : RegState) :
    Except RegError RegState :=
  if ¬ st.admins sender then .error .callerNotAdmin
  else if (st.issuers issuer).tier = IssuerTier.NONE then
    .error .notRegisteredIssuer
  else
    let d := st.issuers issuer
    .ok { st with issuers := setF st.issuers issuer { d with isActive := true } }

/-- One external call into the registry: the opcode, its ambient caller
`sender` (with its block timestamp where the code reads it) and the call
arguments. -/
inductive RegOp
  | verifyT1 (sender now : Nat) (issuerName domain verificationData : List Nat)
  | verifyT2 (sender now : Nat) (issuerName socialMediaUrl : List Nat)
  | manualVerify (sender now issuerAddress : Nat) (issuerName : List Nat)
  | upgrade (sender now : Nat) (domain verificationData : List Nat)
  | adminAdd (sender admin : Nat)
  | adminRemove (sender admin : Nat)
  | deactivate (sender issuer : Nat)
  | reactivate (sender issuer : Nat)

/-- Dispatch one call to its contract function. -/
def stepReg (k : List Nat → Nat) (op : RegOp) (st : RegState) :
    Except RegError RegState :=
  match op with
  | .verifyT1 sender now issuerName domain verificationData =>
      verifyIssuerT1 k sender now issuerName domain verificationData st
  | .verifyT2 sender now issuerName socialMediaUrl =>
      verifyIssuerT2 k sender now issuerName socialMediaUrl st
  | .manualVerify sender now issuerAddress issuerName =>
      manualVerifyIssuer sender now issuerAddress issuerName st
  | .upgrade sender now domain verificationData =>
      upgradeToT1 k sender now domain verificationData st
  | .adminAdd sender admin => addAdmin sender admin st
  | .adminRemove sender admin => removeAdmin sender admin st
  | .deactivate sender issuer => deactivateIssuer sender issuer st
  | .reactivate sender issuer => reactivateIssuer sender issuer st

/-- A reverted transaction leaves the state unchanged. -/
def applyRegOp (k : List Nat → Nat) (op : RegOp) (st : RegState) : RegState :=
  match stepReg k op st with
  | .ok st' => st'
  | .error _ => st

/-- Tests whether a call is `verifyIssuerT2` made by issuer `a` itself. -/
def isT2SelfCall (a : Nat) : RegOp → Bool
  | .verifyT2 sender _ _ _ => sender == a
  | _ => false

/-- Tests whether a call is `manualVerifyIssuer` targeting issuer `a`. -/
def isManualCallOn (a : Nat) : RegOp → Bool
  | .manualVerify _ _ issuerAddress _ => issuerAddress == a
  | _ => false

end IssuerRegistry

namespace SoulboundNFT

open IssuerRegistry

/-- `struct Certificate` from SoulboundNFT. -/
structure Certificate where
  issuer : Nat
  issuerLevel : Nat
  metadataURI : String
  issuedAt : Nat
  recipient : Nat
deriving DecidableEq

/-- The all-zero certificate record of an unset mapping slot. -/
def Certificate.zero : Certificate :=
  { issuer := 0, issuerLevel := 0, metadataURI := "", issuedAt := 0,
    recipient := 0 }

/-- Storage of the `SoulboundNFT` contract: its own slots plus the inherited
ERC721 slots (`_owners`, `_balances`, `_tokenApprovals`, `_operatorApprovals`)
and the `Ownable` owner. -/
structure NFTState where
  tokenIdCounter : Nat
  owners : Nat → Nat
  balances : Nat → Nat
  tokenApprovals : Nat → Nat
  operatorApprovals : Nat → Nat → Bool
  certificates : Nat → Certificate
  merkleRoot : Nat
  baseTokenURI : String
  hasCertificate : Nat → Bool
  contractOwner : Nat

/-- Revert reasons reachable through the `SoulboundNFT` surface. -/
inductive NFTError
  | soulboundToken
  | callerNotVerifiedIssuer
  | recipientNotEligible
  | recipientAlreadyPossesses
  | erc721NonexistentToken
  | erc721InsufficientApproval
  | erc721InvalidReceiver
  | erc721InvalidSender
  | erc721IncorrectOwner
  | notAuthorisedToBurn
deriving DecidableEq

/-- The constructor: counters and mappings zero, configuration stored. -/
def initNFTState (merkleRoot : Nat) (baseTokenURI : String) (deployer : Nat) :
    NFTState :=
  { tokenIdCounter := 0
    owners := fun _ => 0
    balances := fun _ => 0
    tokenApprovals := fun _ => 0
    operatorApprovals := fun _ _ => false
    certificates := fun _ => Certificate.zero
    merkleRoot := merkleRoot
    baseTokenURI := baseTokenURI
    hasCertificate := fun _ => false
    contractOwner := deployer }

/-- OpenZeppelin `ERC721._isAuthorized(owner, spender, tokenId)`.  The
contract overrides the public `getApproved` but not the internal
`_getApproved`, so this reads the raw `_tokenApprovals` slot. -/
def isAuthorized (st : NFTState) (ownr spender tokenId : Nat) : Bool :=
  spender != 0 &&
    (ownr == spender || st.operatorApprovals ownr spender ||
      st.tokenApprovals tokenId == spender)

/-- OpenZeppelin `ERC721._update(to, tokenId, auth)` (the `super._update`
the soulbound override delegates to): authorization check, approval reset,
balance bookkeeping, owner write; returns the previous owner. -/
def erc721Update (toAddr tokenId auth : Nat) (st : NFTState) :
    Except NFTError (Nat × NFTState) :=
  let frm := st.owners tokenId
  if auth ≠ 0 ∧ ¬ isAuthorized st frm auth tokenId then
    if frm = 0 then .error .erc721NonexistentToken
    else .error .erc721InsufficientApproval
  else
    let st1 :=
      if frm ≠ 0 then
        { st with tokenApprovals := setF st.tokenApprovals tokenId 0
                  balances := setF st.balances frm (st.balances frm - 1) }
      else st
    let st2 :=
      if toAddr ≠ 0 then
        { st1 with balances := setF st1.balances toAddr (st1.balances toAddr + 1) }
      else st1
    .ok (frm, { st2 with owners := setF st2.owners tokenId toAddr })

/-- The contract's `_update` override: reverts `SoulboundToken` whenever the
token currently has a holder and the destination is non-null, otherwise
delegates to the ERC721 update. -/
def sbUpdate (toAddr tokenId auth : Nat) (st : NFTState) :
    Except NFTError (Nat × NFTState) :=
  let frm := st.owners tokenId
  if frm ≠ 0 ∧ toAddr ≠ 0 then .error .soulboundToken
  else erc721Update toAddr tokenId auth st

/-- OpenZeppelin `ERC721._mint(to, tokenId)` routed through the soulbound
`_update` override. -/
def erc721Mint (toAddr tokenId : Nat) (st : NFTState) : Except NFTError NFTState :=
  if toAddr = 0 then .error .erc721InvalidReceiver
  else
    match sbUpdate toAddr tokenId 0 st with
    | .error e => .error e
    | .ok (previousOwner, st') =>
      if previousOwner ≠ 0 then .error .erc721InvalidSender else .ok st'

/-- `MerkleProof.processProof`: fold the sibling hashes over the leaf with
sorted-pair hashing; `pairH` abstracts keccak over two bytes32 values. -/
def processProof (pairH : Nat → Nat → Nat) (proof : List Nat) (leaf : Nat) :
    Nat :=
  proof.foldl (fun acc p => if acc < p then pairH acc p else pairH p acc) leaf

/-- `MerkleProof.verify(proof, root, leaf)`. -/
def merkleVerify (pairH : Nat → Nat → Nat) (proof : List Nat)
    (root leaf : Nat) : Bool :=
  processProof pairH proof leaf == root

/-- `isEligible(recipient, merkleProof)`; `leafH` abstracts
`keccak256(abi.encodePacked(recipient))`. -/
def isEligible (leafH : Nat → Nat) (pairH : Nat → Nat → Nat) (st : NFTState)
    (recipient : Nat) (merkleProof : List Nat) : Bool :=
  merkleVerify pairH merkleProof st.merkleRoot (leafH recipient)

/-- `mintCertificate(recipient, merkleProof)` by `sender` at time `now`,
reading the issuer registry state `reg` cross-contract. -/
def mintCertificate (leafH : Nat → Nat) (pairH : Nat → Nat → Nat)
    (reg : RegState) (sender recipient : Nat) (merkleProof : List Nat)
    (now : Nat) (st : NFTState) : Except NFTError (Nat × NFTState) :=
  if ¬ isVerifiedIssuer reg sender then .error .callerNotVerifiedIssuer
  else if ¬ isEligible leafH pairH st recipient merkleProof then
    .error .recipientNotEligible
  else if st.hasCertificate recipient then .error .recipientAlreadyPossesses
  else
    let issuerTier := getIssuerTier reg sender
    let tokenId := st.tokenIdCounter + 1
    match erc721Mint recipient tokenId { st with tokenIdCounter := tokenId } with
    | .error e => .error e
    | .ok st1 =>
      let cert : Certificate :=
        { issuer := sender, issuerLevel := tierNat issuerTier,
          metadataURI := st.baseTokenURI ++ Nat.repr tokenId,
          issuedAt := now, recipient := recipient }
      .ok (tokenId,
        { st1 with certificates := setF st1.certificates tokenId cert
                   hasCertificate := setF st1.hasCertificate recipient true })

/-- `burn(tokenId)` by `sender`: holder or contract owner only; the
possession flag of the previous holder is cleared on success. -/
def burn (sender tokenId : Nat) (st : NFTState) : Except NFTError NFTState :=
  let tokenOwner := st.owners tokenId
  if ¬ (sender = tokenOwner ∨ sender = st.contractOwner) then
    .error .notAuthorisedToBurn
  else
    match sbUpdate 0 tokenId 0 st with
    | .error e => .error e
    | .ok (previousOwner, st1) =>
      if previousOwner = 0 then .error .erc721NonexistentToken
      else .ok { st1 with hasCertificate := setF st1.hasCertificate tokenOwner false }

/-- OpenZeppelin `ERC721.transferFrom(from, to, tokenId)` routed through the
soulbound `_update` override. -/
def transferFrom (sender frm toAddr tokenId : Nat) (st : NFTState) :
    Except NFTError NFTState :=
  if toAddr = 0 then .error .erc721InvalidReceiver
  else
    match sbUpdate toAddr tokenId sender st with
    | .error e => .error e
    | .ok (previousOwner, st') =>
      if previousOwner ≠ frm then .error .erc721IncorrectOwner else .ok st'

/-- The contract's `approve` override: unconditional revert. -/
def approve (sender toAddr tokenId : Nat) (st : NFTState) :
    Except NFTError NFTState :=
  .error .soulboundToken

/-- The contract's `setApprovalForAll` override: unconditional revert. -/
def setApprovalForAll (sender operator : Nat) (approved : Bool)
    (st : NFTState) : Except NFTError NFTState :=
  .error .soulboundToken

/-- One external call into the credential contract.  A mint carries the
issuer-registry state `reg` it reads at that moment. -/
inductive NFTOp
  | mint (reg : RegState) (sender recipient : Nat) (merkleProof : List Nat)
      (now : Nat)
  | burnOp (sender tokenId : Nat)
  | transfer (sender frm toAddr tokenId : Nat)
  | approveOp (sender toAddr tokenId : Nat)
  | setApprovalForAllOp (sender operator : Nat) (approved : Bool)

/-- Dispatch one call to its contract function. -/
def stepNFT (leafH : Nat → Nat) (pairH : Nat → Nat → Nat) (op : NFTOp)
    (st : NFTState) : Except NFTError NFTState :=
  match op with
  | .mint reg sender recipient merkleProof now =>
      match mintCertificate leafH pairH reg sender recipient merkleProof now st with
      | .ok (_, st') => .ok st'
      | .error e => .error e
  | .burnOp sender tokenId => burn sender tokenId st
  | .transfer sender frm toAddr tokenId => transferFrom sender frm toAddr tokenId st
  | .approveOp sender toAddr tokenId => approve sender toAddr tokenId st
  | .setApprovalForAllOp sender operator approved =>
      setApprovalForAll sender operator approved st

/-- A reverted transaction leaves the state unchanged. -/
def applyNFTOp (leafH : Nat → Nat) (pairH : Nat → Nat → Nat) (op : NFTOp)
    (st : NFTState) : NFTState :=
  match stepNFT leafH pairH op st with
  | .ok st' => st'
  | .error _ => st

/-- A whole call sequence applied in order. -/
def applyNFTOps (leafH : Nat → Nat) (pairH : Nat → Nat → Nat)
    (ops : List NFTOp) (st : NFTState) : NFTState :=
  ops.foldl (fun s op => applyNFTOp leafH pairH op s) st

/-- Tests whether a call is a mint or a burn. -/
def NFTOp.isMintOrBurn : NFTOp → Bool
  | .mint _ _ _ _ _ => true
  | .burnOp _ _ => true
  | _ => false

/-- The number of token ids below `n` whose owner slot holds `r`. -/
def countOwned (owners : Nat → Nat) (n r : Nat) : Nat :=
  ((Finset.range n).filter (fun t => owners t = r)).card

/-- The number of live (minted, un-burned) certificates currently held by
`r`: tokens with an id the counter has reached whose owner slot is `r`. -/
def liveCount (st : NFTState) (r : Nat) : Nat :=
  countOwned st.owners (st.tokenIdCounter + 1) r

/-- The inductive invariant of the credential contract: token ids beyond the
counter are unminted, token id 0 is never owned, and for every non-null
recipient the possession flag counts its live certificates. -/
def CertInv (st : NFTState) : Prop :=
  (∀ t, st.tokenIdCounter < t → st.owners t = 0) ∧
  st.owners 0 = 0 ∧
  (∀ r, r ≠ 0 → liveCount st r = if st.hasCertificate r then 1 else 0)

end SoulboundNFT

namespace ZKVerifier

/-- `struct VerifierCircuit` from IZKVerifier.sol. -/
structure VerifierCircuit where
  id : Nat
  name : List Nat
  description : List Nat
  verifierContract : Nat
  isActive : Bool
deriving DecidableEq

/-- The all-zero circuit record of an unset mapping slot. -/
def VerifierCircuit.zero : VerifierCircuit :=
  { id := 0, name := [], description := [], verifierContract := 0,
    isActive := false }

/-- `struct ProofData` from IZKVerifier.sol. -/
structure ProofData where
  id : Nat
  owner : Nat
  circuitId : Nat
  proofHash : Nat
  createdAt : Nat
  expiresAt : Nat
  isRevoked : Bool
deriving DecidableEq

/-- The all-zero proof record of an unset mapping slot. -/
def ProofData.zero : ProofData :=
  { id := 0, owner := 0, circuitId := 0, proofHash := 0, createdAt := 0,
    expiresAt := 0, isRevoked := false }

/-- Storage of the `ZKVerifier` contract plus the `Ownable` owner slot. -/
structure ZKState where
  circuitIdCounter : Nat
  proofIdCounter : Nat
  circuits : Nat → VerifierCircuit
  proofs : Nat → ProofData
  ownerProofs : Nat → List Nat
  admins : Nat → Bool
  owner : Nat

/-- Revert reasons of the `ZKVerifier` contract. -/
inductive ZKError
  | callerNotAdmin
  | callerNotOwner
  | invalidVerifierContract
  | circuitNotActive
  | circuitNotFound
  | proofNotFound
  | notAuthorizedToRevoke
deriving DecidableEq

/-- The constructor: `Ownable(msg.sender)` and `_admins[msg.sender] = true`. -/
def initZKState (deployer : Nat) : ZKState :=
  { circuitIdCounter := 0
    proofIdCounter := 0
    circuits := fun _ => VerifierCircuit.zero
    proofs := fun _ => ProofData.zero
    ownerProofs := fun _ => []
    admins := setF (fun _ => false) deployer true
    owner := deployer }

/-- `registerCircuit(name, description, verifierContract)`, `onlyAdmin`;
returns the fresh circuit id. -/
def registerCircuit (sender : Nat) (name description : List Nat)
    (verifierContract : Nat) (st : ZKState) : Except ZKError (Nat × ZKState) :=
  if ¬ st.admins sender then .error .callerNotAdmin
  else if verifierContract = 0 then .error .invalidVerifierContract
  else
    let circuitId := st.circuitIdCounter + 1
    .ok (circuitId,
      { st with
        circuitIdCounter := circuitId
        circuits := setF st.circuits circuitId
          { id := circuitId, name := name, description := description,
            verifierContract := verifierContract, isActive := true } })

/-- `keccak256(abi.encodePacked(proofData, publicInputs))`: the stored proof
commitment, with keccak abstracted as `k` over the concatenated bytes. -/
def proofCommitment (k : List Nat → Nat) (proofData publicInputs : List Nat) :
    Nat :=
  k (proofData ++ publicInputs)

/-- `createProof(circuitId, proofData, publicInputs, validityPeriod)` by
`sender` at time `now`; returns the fresh proof id. -/
def createProof (k : List Nat → Nat) (sender now circuitId : Nat)
    (proofData publicInputs : List Nat) (validityPeriod : Nat) (st : ZKState) :
    Except ZKError (Nat × ZKState) :=
  if ¬ (st.circuits circuitId).isActive then .error .circuitNotActive
  else
    let proofId := st.proofIdCounter + 1
    let proofHash := proofCommitment k proofData publicInputs
    let expiresAt := now + validityPeriod
    .ok (proofId,
      { st with
        proofIdCounter := proofId
        proofs := setF st.proofs proofId
          { id := proofId, owner := sender, circuitId := circuitId,
            proofHash := proofHash, createdAt := now, expiresAt := expiresAt,
            isRevoked := false }
        ownerProofs := setF st.ownerProofs sender
          (st.ownerProofs sender ++ [proofId]) })

/-- `_isProofValid(proofId)` at ambient time `now`, also the body of the
one-argument `verifyProof(proofId)` view. -/
def verifyProof1 (st : ZKState) (now proofId : Nat) : Bool :=
  if (st.proofs proofId).id = 0 then false
  else if (st.proofs proofId).isRevoked then false
  else if now > (st.proofs proofId).expiresAt then false
  else true

/-- The two-argument `verifyProof(proofId, verifierAddress)` view at ambient
time `now`. -/
def verifyProof2 (st : ZKState) (now proofId verifierAddress : Nat) : Bool :=
  if (st.proofs proofId).id = 0 then false
  else if (st.proofs proofId).isRevoked then false
  else if now > (st.proofs proofId).expiresAt then false
  else if verifierAddress ≠ 0 ∧ ¬ st.admins verifierAddress then false
  else true

/-- `revokeProof(proofId)`: owner of the proof or an admin. -/
def revokeProof (sender proofId : Nat) (st : ZKState) :
    Except ZKError ZKState :=
  let proof := st.proofs proofId
  if proof.id = 0 then .error .proofNotFound
  else if ¬ (proof.owner = sender ∨ st.admins sender) then
    .error .notAuthorizedToRevoke
  else .ok { st with proofs := setF st.proofs proofId { proof with isRevoked := true } }

/-- `deactivateCircuit(circuitId)`, `onlyAdmin`. -/
def deactivateCircuit (sender circuitId : Nat) (st : ZKState) :
    Except ZKError ZKState :=
  if ¬ st.admins sender then .error .callerNotAdmin
  else if (st.circuits circuitId).id = 0 then .error .circuitNotFound
  else
    let c := st.circuits circuitId
    .ok { st with circuits := setF st.circuits circuitId { c with isActive := false } }

/-- `reactivateCircuit(circuitId)`, `onlyAdmin`. -/
def reactivateCircuit (sender circuitId : Nat) (st : ZKState) :
    Except ZKError ZKState :=
  if ¬ st.admins sender then .error .callerNotAdmin
  else if (st.circuits circuitId).id = 0 then .error .circuitNotFound
  else
    let c := st.circuits circuitId
    .ok { st with circuits := setF st.circuits circuitId { c with isActive := true } }

end ZKVerifier

section Examples

open IssuerRegistry SoulboundNFT ZKVerifier

/-- A concrete stand-in for the abstract keccak parameter over byte lists,
used only to evaluate witnesses. -/
def exHash (l : List Nat) : Nat :=
  l.foldl (fun a b => a * 256 + b + 1) 7

/-- A concrete stand-in for the abstract pair-hash parameter. -/
def exPairHash (a b : Nat) : Nat :=
  a * 1000003 + b + 11

/-- A concrete stand-in for the abstract leaf-hash parameter. -/
def exLeafHash (a : Nat) : Nat :=
  a + 500

/-- Registry deployed by address 9. -/
def regEx0 : RegState := initRegState 9

/-- Issuer 5 passes T1 verification for the domain with bytes `[65]`. -/
def regEx1 : RegState :=
  okState regEx0 (verifyIssuerT1 exHash 5 20 [78] [65] [66] regEx0)

/-- Issuer 5, already T1, then calls `verifyIssuerT2` on a fresh URL. -/
def regEx2 : RegState :=
  okState regEx1 (verifyIssuerT2 exHash 5 21 [78] [67] regEx1)

/-- The owner removes itself from the admin set. -/
def regExNoAdmin : RegState :=
  okState regEx0 (removeAdmin 9 9 regEx0)

/-- An admin manually verifies issuer 5. -/
def regExManual : RegState :=
  okState regEx0 (manualVerifyIssuer 9 10 5 [78] regEx0)

/-- Issuer 5 passes T2 verification for the URL with bytes `[85]`. -/
def regExT2 : RegState :=
  okState regEx0 (verifyIssuerT2 exHash 5 22 [78] [85] regEx0)

/-- Credential contract whose eligibility root admits exactly the recipient 3
under the empty Merkle proof. -/
def nftEx0 : NFTState := initNFTState (exLeafHash 3) "b/" 9

/-- State after issuer 5 mints the first certificate to recipient 3. -/
def nftEx1 : NFTState :=
  okSnd nftEx0 (mintCertificate exLeafHash exPairHash regExManual 5 3 [] 40 nftEx0)

/-- A concrete mint/burn call sequence: issuer 5 mints to recipient 3. -/
def nftOpsEx : List NFTOp :=
  [NFTOp.mint regExManual 5 3 [] 40]

/-- Proof registry deployed by address 9. -/
def zkEx0 : ZKState := initZKState 9

/-- State after the admin registers circuit 1. -/
def zkEx1 : ZKState :=
  okSnd zkEx0 (registerCircuit 9 [1] [2] 77 zkEx0)

/-- State after caller 7 creates proof 1 at time 10 with validity 100. -/
def zkEx2 : ZKState :=
  okSnd zkEx1 (createProof exHash 7 10 1 [3] [4] 100 zkEx1)

/-- State after the admin deactivates circuit 1. -/
def zkEx3 : ZKState :=
  okState zkEx2 (deactivateCircuit 9 1 zkEx2)

end Examples

@[simp] theorem setF_same {β : Type} (f : Nat → β) (k : Nat) (v : β) :
    setF f k v k = v := by
  simp [setF]

@[simp] theorem setF_ne {β : Type} (f : Nat → β) (k : Nat) (v : β) (x : Nat)
    (h : x ≠ k) : setF f k v x = f x := by
  simp [setF, h]

section ProofRegistryClaims

open ZKVerifier

/-- C4: `verifyProof(id)` at time `now` is true exactly when the proof
exists (a stored record with nonzero id), is not revoked, and
`now ≤ expiresAt`; in particular it is still true at `expiresAt` and false
at `expiresAt + 1`.  The two-argument form agrees with the one-argument
form when the ACL identity is zero and returns false for a nonzero
non-admin ACL identity.  Both forms are embedded as pure functions of the
state, so neither changes any state. -/
theorem C4_verifyProof_semantics (st : ZKState) (now proofId acl : Nat)
    (hacl : acl ≠ 0) (hadm : st.admins acl = false) :
    (verifyProof1 st now proofId = true ↔
      ((st.proofs proofId).id ≠ 0 ∧ (st.proofs proofId).isRevoked = false ∧
        now ≤ (st.proofs proofId).expiresAt)) ∧
    verifyProof2 st now proofId 0 = verifyProof1 st now proofId ∧
    verifyProof2 st now proofId acl = false ∧
    verifyProof1 st ((st.proofs proofId).expiresAt + 1) proofId = false ∧
    ((st.proofs proofId).id ≠ 0 → (st.proofs proofId).isRevoked = false →
      verifyProof1 st (st.proofs proofId).expiresAt proofId = true) := by
  unfold verifyProof1 verifyProof2
  refine ⟨?_, ?_, ?_, ?_, ?_⟩ <;> split_ifs <;> simp_all

/-- Witness for C4 at a reachable concrete state: circuit 1 registered,
proof 1 created at time 10 with validity 100, queried with the non-admin
nonzero ACL identity 5. -/
theorem C4_verifyProof_semantics_witness :
    verifyProof2 zkEx2 10 1 5 = false :=
  (C4_verifyProof_semantics zkEx2 10 1 5 (by decide) (by decide)).2.2.1

/-- C9: a successful `deactivateCircuit` only flips that circuit's
`isActive` flag: every other circuit, every stored proof record, both
counters, the owner index and the admin set are untouched, and both
`verifyProof` forms give the same answer at every time and for every proof
before and after the call. -/
theorem C9_deactivateCircuit_frame (sender circuitId : Nat)
    (st st' : ZKState) (h : deactivateCircuit sender circuitId st = .ok st') :
    st'.proofs = st.proofs ∧
    (∀ c, c ≠ circuitId → st'.circuits c = st.circuits c) ∧
    st'.circuits circuitId = { st.circuits circuitId with isActive := false } ∧
    (∀ now proofId, verifyProof1 st' now proofId = verifyProof1 st now proofId) ∧
    (∀ now proofId a, verifyProof2 st' now proofId a = verifyProof2 st now proofId a) ∧
    st'.proofIdCounter = st.proofIdCounter ∧
    st'.circuitIdCounter = st.circuitIdCounter ∧
    st'.ownerProofs = st.ownerProofs ∧
    st'.admins = st.admins := by
  unfold deactivateCircuit at h
  split_ifs at h
  injection h with h
  subst h
  refine ⟨rfl, ?_, ?_, ?_, ?_, rfl, rfl, rfl, rfl⟩
  · intro c hc
    simp [setF, hc]
  · simp [setF]
  · intro now proofId
    rfl
  · intro now proofId a
    rfl

/-- Witness for C9 at a reachable concrete state: the admin deactivates
circuit 1 after proof 1 was created against it; the proof record and its
verification results are unchanged. -/
theorem C9_deactivateCircuit_frame_witness :
    zkEx3.proofs = zkEx2.proofs ∧
    verifyProof1 zkEx3 110 1 = verifyProof1 zkEx2 110 1 := by
  have h := C9_deactivateCircuit_frame 9 1 zkEx2 zkEx3 rfl
  exact ⟨h.1, h.2.2.2.1 110 1⟩

/-- C10: the stored commitment hashes the raw concatenation
`proofData ++ publicInputs`, so the distinct input pairs
`([1], [2])` and `([1, 2], [])` collide: both `createProof` calls succeed
from any state whose target circuit is active and store records with the
same `proofHash`, whatever the keccak function is. -/
theorem C10_commitment_not_injective (k : List Nat → Nat) (st : ZKState)
    (sender now circuitId validityPeriod : Nat)
    (hact : (st.circuits circuitId).isActive = true) :
    (([1], [2]) : List Nat × List Nat) ≠ (([1, 2], []) : List Nat × List Nat) ∧
    proofCommitment k [1] [2] = proofCommitment k [1, 2] [] ∧
    okB (createProof k sender now circuitId [1] [2] validityPeriod st) = true ∧
    okB (createProof k sender now circuitId [1, 2] [] validityPeriod st) = true ∧
    ((okSnd st (createProof k sender now circuitId [1] [2] validityPeriod st)).proofs
        (st.proofIdCounter + 1)).proofHash =
      ((okSnd st (createProof k sender now circuitId [1, 2] [] validityPeriod st)).proofs
        (st.proofIdCounter + 1)).proofHash := by
  refine ⟨by decide, rfl, ?_, ?_, ?_⟩ <;>
    simp [createProof, okB, okSnd, proofCommitment, hact, setF]

/-- Witness for C10 with the concrete stand-in hash and the reachable
state holding active circuit 1. -/
theorem C10_commitment_not_injective_witness :
    ((okSnd zkEx1 (createProof exHash 7 10 1 [1] [2] 100 zkEx1)).proofs 1).proofHash =
      ((okSnd zkEx1 (createProof exHash 7 10 1 [1, 2] [] 100 zkEx1)).proofs 1).proofHash := by
  simpa using
    (C10_commitment_not_injective exHash zkEx1 7 10 1 100 (by decide)).2.2.2.2

end ProofRegistryClaims

section IssuerRegistryClaims

open IssuerRegistry ZKVerifier

/-- Counterexample to C7 as stated: in the reachable state where the
deployer (owner, address 9) removed itself from the admin set, the
admin-only `manualVerifyIssuer` fails for the owner instead of
succeeding. -/
theorem C7_counterexample :
    regExNoAdmin.owner = 9 ∧ regExNoAdmin.admins 9 = false ∧
    errOf (manualVerifyIssuer 9 30 5 [78] regExNoAdmin) =
      some RegError.callerNotAdmin := by
  decide

/-- C7 amended: the admin-only operations gate solely on membership of the
caller in the admin set, so the owner can invoke them exactly when the
owner is currently an admin (subject to each operation's other
precondition); after `removeAdmin(owner)` they fail for the owner. -/
theorem C7_amended_owner_needs_admin_bit (st : RegState) (zst : ZKState)
    (now target circuitId verifierContract : Nat)
    (issuerName description : List Nat) :
    okB (manualVerifyIssuer st.owner now target issuerName st) =
      st.admins st.owner ∧
    okB (deactivateIssuer st.owner target st) =
      (st.admins st.owner && ((st.issuers target).tier != IssuerTier.NONE)) ∧
    okB (reactivateIssuer st.owner target st) =
      (st.admins st.owner && ((st.issuers target).tier != IssuerTier.NONE)) ∧
    okB (registerCircuit zst.owner issuerName description verifierContract zst) =
      (zst.admins zst.owner && (verifierContract != 0)) ∧
    okB (deactivateCircuit zst.owner circuitId zst) =
      (zst.admins zst.owner && ((zst.circuits circuitId).id != 0)) ∧
    okB (reactivateCircuit zst.owner circuitId zst) =
      (zst.admins zst.owner && ((zst.circuits circuitId).id != 0)) := by
  unfold manualVerifyIssuer deactivateIssuer reactivateIssuer
    registerCircuit deactivateCircuit reactivateCircuit okB
  refine ⟨?_, ?_, ?_, ?_, ?_, ?_⟩ <;> split_ifs <;> simp_all

/-- Counterexample to C6 as stated: issuer 5 registered the domain `[65]`
itself, so its folded hash maps to 5 — not to a different issuer — yet a
second `verifyIssuerT1` by 5 on the same domain fails with the Conflict
error instead of succeeding. -/
theorem C6_counterexample :
    regEx1.domainToIssuer (hashStr exHash [65]) = 5 ∧
    errOf (verifyIssuerT1 exHash 5 21 [78] [65] [66] regEx1) =
      some RegError.domainAlreadyRegistered := by
  decide

/-- C6 amended: `verifyIssuerT1` fails with the Conflict error iff the
ASCII-folded hash of the domain is already bound to any nonzero issuer
(including the caller itself); otherwise it succeeds, overwrites the
caller's full issuer record with tier T1 and active status, and binds the
folded domain hash to the caller; any string with the same ASCII fold
behaves identically. -/
theorem C6_amended_verifyT1_conflict (k : List Nat → Nat) (sender now : Nat)
    (issuerName domain verificationData d2 : List Nat) (st : RegState) :
    (verifyIssuerT1 k sender now issuerName domain verificationData st =
        .error .domainAlreadyRegistered ↔
      st.domainToIssuer (hashStr k domain) ≠ 0) ∧
    (st.domainToIssuer (hashStr k domain) = 0 →
      okB (verifyIssuerT1 k sender now issuerName domain verificationData st) = true ∧
      (okState st (verifyIssuerT1 k sender now issuerName domain verificationData st)).issuers
          sender =
        { issuerAddress := sender, tier := .T1, name := issuerName,
          verificationData := verificationData, verifiedAt := now,
          isActive := true } ∧
      (okState st (verifyIssuerT1 k sender now issuerName domain verificationData st)).domainToIssuer
          (hashStr k domain) = sender) ∧
    (toLower d2 = toLower domain →
      errOf (verifyIssuerT1 k sender now issuerName d2 verificationData st) =
        errOf (verifyIssuerT1 k sender now issuerName domain verificationData st)) := by
  refine ⟨?_, ?_, ?_⟩
  · unfold verifyIssuerT1
    split_ifs with hc
    · simp [hc]
    · simp [hc]
  · intro h0
    unfold verifyIssuerT1
    simp [h0, okB, okState, setF]
  · intro hfold
    unfold verifyIssuerT1 hashStr
    rw [hfold]

/-- Witness for the amended C6: issuer 5 registers the fresh domain `[68]`
in the initial registry. -/
theorem C6_amended_verifyT1_conflict_witness :
    okB (verifyIssuerT1 exHash 5 20 [78] [68] [66] regEx0) = true :=
  ((C6_amended_verifyT1_conflict exHash 5 20 [78] [68] [66] [68] regEx0).2.1
    (by decide)).1

/-- C8: `upgradeToT1` fails with the InvalidState error whenever the caller
is not a T2 issuer (tier NONE, MANUAL or T1); with the Conflict error when
the caller is T2 but the folded domain hash is already bound; and on
success sets the caller's tier to T1, refreshes `verifiedAt`, stores the
new verification data, binds the domain claim to the caller, and clears
the mapping entry of the caller's previous social-media claim hash. -/
theorem C8_upgrade_contract (k : List Nat → Nat) (sender now : Nat)
    (domain verificationData : List Nat) (st : RegState) :
    ((st.issuers sender).tier ≠ IssuerTier.T2 →
      upgradeToT1 k sender now domain verificationData st = .error .callerNotT2) ∧
    ((st.issuers sender).tier = IssuerTier.T2 →
      st.domainToIssuer (hashStr k domain) ≠ 0 →
      upgradeToT1 k sender now domain verificationData st =
        .error .domainAlreadyRegistered) ∧
    ((st.issuers sender).tier = IssuerTier.T2 →
      st.domainToIssuer (hashStr k domain) = 0 →
      okB (upgradeToT1 k sender now domain verificationData st) = true ∧
      ((okState st (upgradeToT1 k sender now domain verificationData st)).issuers
          sender).tier = IssuerTier.T1 ∧
      ((okState st (upgradeToT1 k sender now domain verificationData st)).issuers
          sender).verifiedAt = now ∧
      ((okState st (upgradeToT1 k sender now domain verificationData st)).issuers
          sender).verificationData = verificationData ∧
      (okState st (upgradeToT1 k sender now domain verificationData st)).domainToIssuer
          (hashStr k domain) = sender ∧
      (okState st (upgradeToT1 k sender now domain verificationData st)).socialMediaToIssuer
          (hashStr k (st.issuers sender).verificationData) = 0) := by
  refine ⟨?_, ?_, ?_⟩
  · intro ht
    unfold upgradeToT1
    simp [ht]
  · intro ht hc
    unfold upgradeToT1
    simp [ht, hc]
  · intro ht hc
    unfold upgradeToT1
    simp [ht, hc, okB, okState, setF]

/-- Witness for C8: issuer 5, T2-verified through URL `[85]`, upgrades with
the fresh domain `[68]`; the old social claim slot is released. -/
theorem C8_upgrade_contract_witness :
    okB (upgradeToT1 exHash 5 30 [68] [69] regExT2) = true ∧
    (okState regExT2 (upgradeToT1 exHash 5 30 [68] [69] regExT2)).socialMediaToIssuer
      (hashStr exHash (regExT2.issuers 5).verificationData) = 0 := by
  have h :=
    (C8_upgrade_contract exHash 5 30 [68] [69] regExT2).2.2 (by decide) (by decide)
  exact ⟨h.1, h.2.2.2.2.2⟩

/-- Counterexample to C5 as stated: issuer 5 reaches tier T1, then its own
`verifyIssuerT2` call on a fresh URL overwrites the record with tier T2. -/
theorem C5_counterexample :
    (regEx1.issuers 5).tier = IssuerTier.T1 ∧
    (regEx2.issuers 5).tier = IssuerTier.T2 := by
  decide

/-- C5 amended: once an issuer's tier is T1 no registry operation can set
it back to NONE, and the only operations that can move it off T1 are the
issuer's own `verifyIssuerT2` re-verification (to T2) and an admin's
`manualVerifyIssuer` targeting it (to MANUAL); every other operation
leaves the tier at T1. -/
theorem C5_amended_tier_after_T1 (k : List Nat → Nat) (op : RegOp)
    (st : RegState) (a : Nat) (h : (st.issuers a).tier = IssuerTier.T1) :
    ((applyRegOp k op st).issuers a).tier ≠ IssuerTier.NONE ∧
    (isT2SelfCall a op = false → isManualCallOn a op = false →
      ((applyRegOp k op st).issuers a).tier = IssuerTier.T1) := by
  cases op <;>
    simp only [applyRegOp, stepReg, verifyIssuerT1, verifyIssuerT2,
      manualVerifyIssuer, upgradeToT1, addAdmin, removeAdmin,
      deactivateIssuer, reactivateIssuer, isT2SelfCall, isManualCallOn] <;>
    split_ifs <;>
    constructor <;>
    intros <;>
    simp_all [setF] <;>
    split_ifs <;>
    simp_all

/-- Witness for the amended C5: after issuer 5 reached T1, an unrelated
`addAdmin` call leaves its tier at T1. -/
theorem C5_amended_tier_after_T1_witness :
    ((applyRegOp exHash (RegOp.adminAdd 9 3) regEx1).issuers 5).tier =
      IssuerTier.T1 :=
  (C5_amended_tier_after_T1 exHash (RegOp.adminAdd 9 3) regEx1 5 (by decide)).2
    (by decide) (by decide)

end IssuerRegistryClaims

section CredentialRegistryLemmas

open IssuerRegistry SoulboundNFT

/-- Anatomy of a successful soulbound `_update`: the returned value is the
previous owner, only the owner slot (and bookkeeping the claims do not
read) changes, and either the token was unowned or the destination is the
null address. -/
theorem sbUpdate_ok {toAddr tokenId auth prev : Nat} {st st' : NFTState}
    (h : sbUpdate toAddr tokenId auth st = .ok (prev, st')) :
    prev = st.owners tokenId ∧
    st'.owners = setF st.owners tokenId toAddr ∧
    (st.owners tokenId = 0 ∨ toAddr = 0) ∧
    st'.tokenIdCounter = st.tokenIdCounter ∧
    st'.certificates = st.certificates ∧
    st'.hasCertificate = st.hasCertificate ∧
    st'.merkleRoot = st.merkleRoot ∧
    st'.baseTokenURI = st.baseTokenURI ∧
    st'.contractOwner = st.contractOwner := by
  simp only [sbUpdate, erc721Update] at h
  split_ifs at h with h1 h2 h3 <;>
  · injection h with h
    injection h with ha hb
    subst ha
    subst hb
    refine ⟨rfl, rfl, ?_, rfl, rfl, rfl, rfl, rfl, rfl⟩
    tauto

/-- Anatomy of a successful `_mint` through the soulbound `_update`. -/
theorem erc721Mint_ok {toAddr tokenId : Nat} {st st' : NFTState}
    (h : erc721Mint toAddr tokenId st = .ok st') :
    toAddr ≠ 0 ∧
    st.owners tokenId = 0 ∧
    st'.owners = setF st.owners tokenId toAddr ∧
    st'.tokenIdCounter = st.tokenIdCounter ∧
    st'.certificates = st.certificates ∧
    st'.hasCertificate = st.hasCertificate ∧
    st'.merkleRoot = st.merkleRoot ∧
    st'.baseTokenURI = st.baseTokenURI ∧
    st'.contractOwner = st.contractOwner := by
  unfold erc721Mint at h
  split_ifs at h with h1
  cases hsb : sbUpdate toAddr tokenId 0 st with
  | error e =>
    rw [hsb] at h
    exact Except.noConfusion h
  | ok p =>
    obtain ⟨prev, st1⟩ := p
    rw [hsb] at h
    simp only at h
    split_ifs at h with h2
    injection h with h
    subst h
    obtain ⟨hprev, howners, hdisj, hrest⟩ := sbUpdate_ok hsb
    subst hprev
    exact ⟨h1, not_ne_iff.mp h2, howners, hrest⟩

/-- Anatomy of a successful `mintCertificate`: all three guards passed, the
fresh token id is the incremented counter, and exactly the owner slot of
the fresh token, the recipient's possession flag and the certificate
record change. -/
theorem mintCertificate_ok {lH : Nat → Nat} {pH : Nat → Nat → Nat}
    {reg : RegState} {sender recipient now tokenId : Nat} {proof : List Nat}
    {st st' : NFTState}
    (h : mintCertificate lH pH reg sender recipient proof now st =
      .ok (tokenId, st')) :
    tokenId = st.tokenIdCounter + 1 ∧
    recipient ≠ 0 ∧
    st.hasCertificate recipient = false ∧
    st.owners (st.tokenIdCounter + 1) = 0 ∧
    st'.tokenIdCounter = st.tokenIdCounter + 1 ∧
    st'.owners = setF st.owners (st.tokenIdCounter + 1) recipient ∧
    st'.hasCertificate = setF st.hasCertificate recipient true ∧
    st'.certificates = setF st.certificates (st.tokenIdCounter + 1)
      { issuer := sender, issuerLevel := tierNat (getIssuerTier reg sender),
        metadataURI := st.baseTokenURI ++ Nat.repr (st.tokenIdCounter + 1),
        issuedAt := now, recipient := recipient } ∧
    isVerifiedIssuer reg sender = true ∧
    isEligible lH pH st recipient proof = true := by
  simp only [mintCertificate] at h
  split_ifs at h with h1 h2 h3
  cases hm : erc721Mint recipient (st.tokenIdCounter + 1)
      { st with tokenIdCounter := st.tokenIdCounter + 1 } with
  | error e =>
    rw [hm] at h
    exact Except.noConfusion h
  | ok st1 =>
    rw [hm] at h
    simp only at h
    injection h with h
    injection h with ha hb
    subst ha
    subst hb
    obtain ⟨hz, hfresh, howners, hctr, hcerts, hflag, hroot, hbase, hown⟩ :=
      erc721Mint_ok hm
    refine ⟨rfl, hz, by simpa using h3, hfresh, ?_, ?_, ?_, ?_, ?_, ?_⟩
    · simpa using hctr
    · simpa using howners
    · rw [hflag]
    · rw [hcerts]
    · simpa using h1
    · simpa using h2

/-- Anatomy of a successful `burn`: the token had a holder, the holder (or
contract owner) called, the owner slot is cleared and the holder's
possession flag reset; nothing else the claims read changes. -/
theorem burn_ok {sender tokenId : Nat} {st st' : NFTState}
    (h : burn sender tokenId st = .ok st') :
    st.owners tokenId ≠ 0 ∧
    (sender = st.owners tokenId ∨ sender = st.contractOwner) ∧
    st'.owners = setF st.owners tokenId 0 ∧
    st'.hasCertificate = setF st.hasCertificate (st.owners tokenId) false ∧
    st'.tokenIdCounter = st.tokenIdCounter ∧
    st'.certificates = st.certificates := by
  simp only [burn] at h
  split_ifs at h with h1
  cases hsb : sbUpdate 0 tokenId 0 st with
  | error e =>
    rw [hsb] at h
    exact Except.noConfusion h
  | ok p =>
    obtain ⟨prev, st1⟩ := p
    rw [hsb] at h
    simp only at h
    split_ifs at h with h2
    injection h with h
    subst h
    obtain ⟨hprev, howners, hdisj, hctr, hcerts, hflag, hrest⟩ :=
      sbUpdate_ok hsb
    subst hprev
    exact ⟨h2, h1, howners, by rw [hflag], hctr, hcerts⟩

/-- A point update at or beyond the counted range does not affect the
membership predicate inside the range. -/
theorem filter_setF_out (owners : Nat → Nat) (idx v r n : Nat)
    (hn : n ≤ idx) :
    (Finset.range n).filter (fun t => setF owners idx v t = r) =
      (Finset.range n).filter (fun t => owners t = r) := by
  apply Finset.filter_congr
  intro x hx
  have hx' : x < n := Finset.mem_range.mp hx
  have hne : x ≠ idx := by omega
  simp [setF, hne]

/-- Counting owned tokens after minting the fresh token `c + 1` to
`recipient`. -/
theorem countOwned_mint (owners : Nat → Nat) (c recipient r : Nat) :
    countOwned (setF owners (c + 1) recipient) (c + 1 + 1) r =
      countOwned owners (c + 1) r + (if recipient = r then 1 else 0) := by
  unfold countOwned
  rw [Finset.range_succ, Finset.filter_insert,
    filter_setF_out owners (c + 1) recipient r (c + 1) le_rfl]
  by_cases hr2 : recipient = r
  · rw [if_pos (by simpa [setF] using hr2)]
    rw [Finset.card_insert_of_not_mem (by simp)]
    simp [hr2]
  · rw [if_neg (by simpa [setF] using hr2)]
    simp [hr2]

/-- Counting owned tokens after burning token `tokenId` (clearing its owner
slot): for a non-null holder the count drops by one exactly when the slot
held `r`. -/
theorem countOwned_burn (owners : Nat → Nat) (n tokenId r : Nat)
    (htk : tokenId < n) (hr : r ≠ 0) :
    countOwned owners n r =
      countOwned (setF owners tokenId 0) n r +
        (if owners tokenId = r then 1 else 0) := by
  unfold countOwned
  have hmem : tokenId ∈ Finset.range n := Finset.mem_range.mpr htk
  rw [← Finset.insert_erase hmem, Finset.filter_insert, Finset.filter_insert]
  have herase :
      ((Finset.range n).erase tokenId).filter
          (fun t => setF owners tokenId 0 t = r) =
        ((Finset.range n).erase tokenId).filter (fun t => owners t = r) := by
    apply Finset.filter_congr
    intro x hx
    have hne : x ≠ tokenId := Finset.ne_of_mem_erase hx
    simp [setF, hne]
  rw [herase]
  have hzr : ¬ (setF owners tokenId 0 tokenId = r) := by
    simp [setF]
    omega
  rw [if_neg hzr]
  by_cases ho : owners tokenId = r
  · rw [if_pos ho]
    rw [Finset.card_insert_of_not_mem (by simp)]
    simp [ho]
  · rw [if_neg ho]
    simp [ho]

end CredentialRegistryLemmas

section CredentialRegistryInvariant

open IssuerRegistry SoulboundNFT

/-- A successful mint preserves the possession invariant. -/
theorem certInv_mint {lH : Nat → Nat} {pH : Nat → Nat → Nat} {reg : RegState}
    {sender recipient now tokenId : Nat} {proof : List Nat} {st st' : NFTState}
    (h : mintCertificate lH pH reg sender recipient proof now st =
      .ok (tokenId, st'))
    (hinv : CertInv st) : CertInv st' := by
  obtain ⟨hid, hrec, hcf, hfresh, hctr, howners, hflag, hcerts, -, -⟩ :=
    mintCertificate_ok h
  obtain ⟨hbound, hzero, hcount⟩ := hinv
  refine ⟨?_, ?_, ?_⟩
  · intro t ht
    rw [hctr] at ht
    rw [howners, setF_ne _ _ _ _ (by omega)]
    exact hbound t (by omega)
  · rw [howners, setF_ne _ _ _ _ (by omega)]
    exact hzero
  · intro r hrr
    unfold liveCount
    rw [hctr, howners, hflag, countOwned_mint]
    have hold := hcount r hrr
    unfold liveCount at hold
    by_cases hr2 : recipient = r
    · subst hr2
      rw [setF_same, hcf] at *
      rw [hold]
      simp [hcf]
    · rw [setF_ne _ _ _ _ (Ne.symm hr2)]
      rw [hold]
      simp [hr2]

/-- A successful burn preserves the possession invariant. -/
theorem certInv_burn {sender tokenId : Nat} {st st' : NFTState}
    (h : burn sender tokenId st = .ok st') (hinv : CertInv st) :
    CertInv st' := by
  obtain ⟨hw, -, howners, hflag, hctr, -⟩ := burn_ok h
  obtain ⟨hbound, hzero, hcount⟩ := hinv
  have htk : tokenId < st.tokenIdCounter + 1 := by
    by_contra hcon
    exact hw (hbound tokenId (by omega))
  refine ⟨?_, ?_, ?_⟩
  · intro t ht
    rw [hctr] at ht
    rw [howners]
    by_cases he : t = tokenId
    · subst he
      exact setF_same _ _ _
    · rw [setF_ne _ _ _ _ he]
      exact hbound t ht
  · rw [howners]
    by_cases he : (0 : Nat) = tokenId
    · rw [he, setF_same]
    · rw [setF_ne _ _ _ _ he]
      exact hzero
  · intro r hrr
    unfold liveCount
    rw [hctr, howners, hflag]
    have hc := countOwned_burn st.owners (st.tokenIdCounter + 1) tokenId r htk hrr
    have hold := hcount r hrr
    unfold liveCount at hold
    by_cases hr2 : st.owners tokenId = r
    · rw [hr2, setF_same]
      rw [if_pos hr2] at hc
      simp only [Bool.false_eq_true, if_false]
      cases hcf : st.hasCertificate r <;> simp [hcf] at hold <;> omega
    · rw [setF_ne _ _ _ _ (fun he => hr2 he.symm)]
      rw [if_neg hr2] at hc
      rw [hold] at hc
      omega

/-- Every mint/burn transaction, successful or reverted, preserves the
possession invariant. -/
theorem certInv_applyNFTOp {lH : Nat → Nat} {pH : Nat → Nat → Nat}
    {op : NFTOp} {st : NFTState} (hop : op.isMintOrBurn = true)
    (hinv : CertInv st) : CertInv (applyNFTOp lH pH op st) := by
  cases op with
  | mint reg sender recipient proof now =>
    cases hm : mintCertificate lH pH reg sender recipient proof now st with
    | error e => simpa only [applyNFTOp, stepNFT, hm] using hinv
    | ok p =>
      obtain ⟨tid, st2⟩ := p
      simpa only [applyNFTOp, stepNFT, hm] using certInv_mint hm hinv
  | burnOp sender tokenId =>
    cases hb : burn sender tokenId st with
    | error e => simpa only [applyNFTOp, stepNFT, hb] using hinv
    | ok st2 => simpa only [applyNFTOp, stepNFT, hb] using certInv_burn hb hinv
  | transfer sender frm toAddr tokenId => simp [NFTOp.isMintOrBurn] at hop
  | approveOp sender toAddr tokenId => simp [NFTOp.isMintOrBurn] at hop
  | setApprovalForAllOp sender operator approved =>
    simp [NFTOp.isMintOrBurn] at hop

/-- The deployed contract satisfies the possession invariant. -/
theorem certInv_init (root : Nat) (base : String) (deployer : Nat) :
    CertInv (initNFTState root base deployer) := by
  refine ⟨fun t ht => rfl, rfl, ?_⟩
  intro r hr
  show countOwned (fun _ => 0) (0 + 1) r = if false = true then 1 else 0
  rw [if_neg (by simp)]
  unfold countOwned
  rw [Finset.filter_false_of_mem fun x hx hc => hr hc.symm]
  exact Finset.card_empty

/-- Mint/burn call sequences preserve the possession invariant. -/
theorem certInv_applyNFTOps {lH : Nat → Nat} {pH : Nat → Nat → Nat}
    {ops : List NFTOp} {st : NFTState}
    (hops : ∀ op ∈ ops, op.isMintOrBurn = true) (hinv : CertInv st) :
    CertInv (applyNFTOps lH pH ops st) := by
  induction ops generalizing st with
  | nil => exact hinv
  | cons op rest ih =>
    simp only [applyNFTOps, List.foldl_cons]
    have hstep := @certInv_applyNFTOp lH pH op st
      (hops op (List.mem_cons_self op rest)) hinv
    simpa only [applyNFTOps] using
      ih (fun o ho => hops o (List.mem_cons_of_mem _ ho)) hstep

/-- A transition of `stepNFT` either leaves a token's owner slot unchanged,
mints it (null to non-null) or burns it (non-null to null). -/
theorem stepNFT_holder_transition {lH : Nat → Nat} {pH : Nat → Nat → Nat}
    {op : NFTOp} {st st' : NFTState} (h : stepNFT lH pH op st = .ok st')
    (t : Nat) (hch : st'.owners t ≠ st.owners t) :
    (st.owners t = 0 ∧ st'.owners t ≠ 0) ∨
    (st.owners t ≠ 0 ∧ st'.owners t = 0) := by
  cases op with
  | mint reg sender recipient proof now =>
    simp only [stepNFT] at h
    cases hm : mintCertificate lH pH reg sender recipient proof now st with
    | error e =>
      rw [hm] at h
      exact Except.noConfusion h
    | ok p =>
      obtain ⟨tid, st2⟩ := p
      rw [hm] at h
      injection h with h
      subst h
      obtain ⟨-, hrec, -, hfresh, -, howners, -⟩ := mintCertificate_ok hm
      rw [howners] at hch ⊢
      by_cases he : t = st.tokenIdCounter + 1
      · subst he
        rw [setF_same] at *
        exact Or.inl ⟨hfresh, hrec⟩
      · rw [setF_ne _ _ _ _ he] at hch
        exact absurd rfl hch
  | burnOp sender tokenId =>
    simp only [stepNFT] at h
    obtain ⟨hw, -, howners, -⟩ := burn_ok h
    rw [howners] at hch ⊢
    by_cases he : t = tokenId
    · subst he
      rw [setF_same] at *
      exact Or.inr ⟨fun h0 => hch (h0.symm), rfl⟩
    · rw [setF_ne _ _ _ _ he] at hch
      exact absurd rfl hch
  | transfer sender frm toAddr tokenId =>
    simp only [stepNFT, transferFrom] at h
    split_ifs at h with h1
    cases hsb : sbUpdate toAddr tokenId sender st with
    | error e =>
      rw [hsb] at h
      exact Except.noConfusion h
    | ok p =>
      obtain ⟨prev, st1⟩ := p
      rw [hsb] at h
      simp only at h
      split_ifs at h with h2
      injection h with h
      subst h
      obtain ⟨-, howners, hdisj, -⟩ := sbUpdate_ok hsb
      rw [howners] at hch ⊢
      by_cases he : t = tokenId
      · subst he
        rw [setF_same] at hch ⊢
        rcases hdisj with h0 | h0
        · exact Or.inl ⟨h0, fun hta => hch (by rw [hta, h0])⟩
        · exact Or.inr ⟨fun hw => hch (by rw [h0, hw]), h0⟩
      · rw [setF_ne _ _ _ _ he] at hch
        exact absurd rfl hch
  | approveOp sender toAddr tokenId => exact Except.noConfusion h
  | setApprovalForAllOp sender operator approved => exact Except.noConfusion h

end CredentialRegistryInvariant

section CredentialRegistryClaims

open IssuerRegistry SoulboundNFT

/-- C1: every operation of the credential contract either leaves a token's
holder slot unchanged, mints it (null to non-null) or burns it (non-null
to null); any `transferFrom` aimed at moving a held token to a different
non-null holder reverts with the soulbound error; and `approve` and
`setApprovalForAll` revert unconditionally for every caller, the contract
owner included. -/
theorem C1_soulbound_invariant (lH : Nat → Nat) (pH : Nat → Nat → Nat)
    (op : NFTOp) (st : NFTState)
    (t caller frm toAddr tokenId spender operator : Nat) (approved : Bool)
    (hheld : st.owners tokenId ≠ 0) (hto : toAddr ≠ 0)
    (hdiff : toAddr ≠ st.owners tokenId) :
    ((applyNFTOp lH pH op st).owners t ≠ st.owners t →
      (st.owners t = 0 ∧ (applyNFTOp lH pH op st).owners t ≠ 0) ∨
      (st.owners t ≠ 0 ∧ (applyNFTOp lH pH op st).owners t = 0)) ∧
    transferFrom caller frm toAddr tokenId st = .error .soulboundToken ∧
    approve caller spender tokenId st = .error .soulboundToken ∧
    setApprovalForAll caller operator approved st = .error .soulboundToken := by
  refine ⟨?_, ?_, rfl, rfl⟩
  · intro hch
    cases hstep : stepNFT lH pH op st with
    | error e =>
      simp only [applyNFTOp, hstep] at hch
      exact absurd rfl hch
    | ok st2 =>
      simp only [applyNFTOp, hstep] at hch ⊢
      exact stepNFT_holder_transition hstep t hch
  · simp [transferFrom, sbUpdate, hto, hheld]

/-- Witness for C1 at the reachable state where recipient 3 holds token 1:
a transfer attempt reverts soulbound, as do both approval entry points. -/
theorem C1_soulbound_invariant_witness :
    transferFrom 3 3 4 1 nftEx1 = Except.error NFTError.soulboundToken ∧
    approve 9 4 1 nftEx1 = Except.error NFTError.soulboundToken ∧
    setApprovalForAll 9 4 true nftEx1 = Except.error NFTError.soulboundToken := by
  have h := C1_soulbound_invariant exLeafHash exPairHash
    (NFTOp.burnOp 3 1) nftEx1 1 3 3 4 1 4 4 true (by decide) (by decide)
    (by decide)
  exact ⟨h.2.1, h.2.2.1, h.2.2.2⟩

/-- C3: `mintCertificate` fails in order — Unauthorized unless the caller
is a verified issuer, InvalidProof unless the Merkle proof verifies the
recipient against the current root, AlreadyExists if the possession flag
is set — and otherwise returns the incremented counter (so ids start at 1
and increase by 1), stores a certificate record snapshotting the caller's
current tier and deriving `metadataURI` from the current base URI and the
decimal id, sets the possession flag, and makes the recipient the holder.
The two standing hypotheses say the fresh token id is unminted and the
recipient is not the null address, both true in every reachable state. -/
theorem C3_mint_contract (lH : Nat → Nat) (pH : Nat → Nat → Nat)
    (reg : RegState) (sender recipient now root deployer : Nat) (base : String)
    (merkleProof : List Nat) (st : NFTState)
    (hfresh : st.owners (st.tokenIdCounter + 1) = 0) (hrec : recipient ≠ 0) :
    (initNFTState root base deployer).tokenIdCounter = 0 ∧
    (isVerifiedIssuer reg sender = false →
      mintCertificate lH pH reg sender recipient merkleProof now st =
        .error .callerNotVerifiedIssuer) ∧
    (isVerifiedIssuer reg sender = true →
      isEligible lH pH st recipient merkleProof = false →
      mintCertificate lH pH reg sender recipient merkleProof now st =
        .error .recipientNotEligible) ∧
    (isVerifiedIssuer reg sender = true →
      isEligible lH pH st recipient merkleProof = true →
      st.hasCertificate recipient = true →
      mintCertificate lH pH reg sender recipient merkleProof now st =
        .error .recipientAlreadyPossesses) ∧
    (isVerifiedIssuer reg sender = true →
      isEligible lH pH st recipient merkleProof = true →
      st.hasCertificate recipient = false →
      okB (mintCertificate lH pH reg sender recipient merkleProof now st) = true ∧
      okFst 0 (mintCertificate lH pH reg sender recipient merkleProof now st) =
        st.tokenIdCounter + 1 ∧
      (okSnd st (mintCertificate lH pH reg sender recipient merkleProof now st)).tokenIdCounter =
        st.tokenIdCounter + 1 ∧
      (okSnd st (mintCertificate lH pH reg sender recipient merkleProof now st)).certificates
          (st.tokenIdCounter + 1) =
        { issuer := sender, issuerLevel := tierNat (getIssuerTier reg sender),
          metadataURI := st.baseTokenURI ++ Nat.repr (st.tokenIdCounter + 1),
          issuedAt := now, recipient := recipient } ∧
      (okSnd st (mintCertificate lH pH reg sender recipient merkleProof now st)).hasCertificate
          recipient = true ∧
      (okSnd st (mintCertificate lH pH reg sender recipient merkleProof now st)).owners
          (st.tokenIdCounter + 1) = recipient) := by
  refine ⟨rfl, ?_, ?_, ?_, ?_⟩
  · intro h1
    simp [mintCertificate, h1]
  · intro h1 h2
    simp [mintCertificate, h1, h2]
  · intro h1 h2 h3
    simp [mintCertificate, h1, h2, h3]
  · intro h1 h2 h3
    simp [mintCertificate, erc721Mint, sbUpdate, erc721Update, h1, h2, h3,
      hrec, hfresh, okB, okFst, okSnd, setF]

/-- Witness for C3: the manually verified issuer 5 mints to the eligible
recipient 3 in the freshly deployed contract and gets id 1. -/
theorem C3_mint_contract_witness :
    okB (mintCertificate exLeafHash exPairHash regExManual 5 3 [] 40 nftEx0) =
      true :=
  ((C3_mint_contract exLeafHash exPairHash regExManual 5 3 40 0 9 "b/" []
    nftEx0 (by decide) (by decide)).2.2.2.2 (by decide) (by decide)
    (by decide)).1

/-- C2: after any sequence of mint and burn transactions from the deployed
contract, a non-null recipient's possession flag is set iff it holds
exactly one live certificate, it never holds two or more, and a
successful burn clears the previous holder's flag (so a later re-mint is
permitted by the AlreadyExists guard, which only checks this flag). -/
theorem C2_possession_exclusivity (lH : Nat → Nat) (pH : Nat → Nat → Nat)
    (ops : List NFTOp) (root deployer r : Nat) (base : String)
    (hops : ∀ op ∈ ops, op.isMintOrBurn = true) (hr : r ≠ 0) :
    ((applyNFTOps lH pH ops (initNFTState root base deployer)).hasCertificate r =
        true ↔
      liveCount (applyNFTOps lH pH ops (initNFTState root base deployer)) r = 1) ∧
    liveCount (applyNFTOps lH pH ops (initNFTState root base deployer)) r ≤ 1 ∧
    (∀ sender tokenId st st', burn sender tokenId st = Except.ok st' →
      st'.hasCertificate (st.owners tokenId) = false) := by
  obtain ⟨-, -, hcount⟩ :=
    @certInv_applyNFTOps lH pH ops (initNFTState root base deployer) hops
      (certInv_init root base deployer)
  have hc := hcount r hr
  refine ⟨?_, ?_, ?_⟩
  · constructor
    · intro hf
      rw [hc, hf]
      rfl
    · intro h1
      by_contra hf
      rw [hc] at h1
      rcases Bool.not_eq_true _ |>.mp hf with hfalse
      rw [hfalse] at h1
      simp at h1
  · rw [hc]
    split <;> omega
  · intro sender tokenId st st' hb
    obtain ⟨-, -, -, hflag, -⟩ := burn_ok hb
    rw [hflag, setF_same]

/-- Witness for C2 after the concrete mint sequence `nftOpsEx`: recipient 3
holds exactly one live certificate and its flag is set. -/
theorem C2_possession_exclusivity_witness :
    (applyNFTOps exLeafHash exPairHash nftOpsEx nftEx0).hasCertificate 3 =
        true ↔
      liveCount (applyNFTOps exLeafHash exPairHash nftOpsEx nftEx0) 3 = 1 :=
  (C2_possession_exclusivity exLeafHash exPairHash nftOpsEx (exLeafHash 3) 9 3
    "b/" (by simp [nftOpsEx, NFTOp.isMintOrBurn]) (by decide)).1

end CredentialRegistryClaims

end Decentracert
